import Mathlib

/-!
Verification of the EchoChamber client (src/EchoChamber.ts).

Shallow embedding of the connection-lifecycle and session-continuity engine.
JavaScript `Set<string>` values are modelled as insertion-ordered lists that the
operations keep duplicate-free (`setAdd` appends only when absent, matching
`Set.prototype.add`; `List.erase` matches `Set.prototype.delete` on such lists).
Serialized outbound frames (`JSON.stringify(data)`) are represented by the
`MessageData` records themselves: the spec declares the wire encoding trivial
and out of scope, and `JSON.stringify` is injective on these records.
Handler callbacks are opaque and represented by numeric identifiers; invoking a
callback is recorded as an `Effect.invoke` observation.  Timers are represented
by the `Effect.schedule` observation carrying the computed delay.
-/

/-- Wire frame record, from interface MessageData of EchoChamber.ts.
The payload object is opaque at this layer and modelled by an optional token. -/
structure MessageData where
  action : String
  room : Option String := none
  payload : Option String := none
deriving DecidableEq, Repr

/-- The ConnectionState union type of EchoChamber.ts. -/
inductive ConnectionState
  | connecting
  | connected
  | error
  | closed
deriving DecidableEq, Repr

/-- WebSocket readyState values of the transport object. -/
inductive ReadyState
  | CONNECTING
  | OPEN
  | CLOSING
  | CLOSED
deriving DecidableEq, Repr

/-- The numeric and boolean configuration options read by the core engine
(option fields of EchoChamber.ts; logging and timing cosmetics omitted). -/
structure Options where
  reconnectDelay : Int := 1000
  reconnectMultiplier : Int := 2
  maxReconnectDelay : Int := 30000
  reconnect : Bool := false
deriving DecidableEq, Repr

/-- The mutable state of one EchoChamber instance (the private fields of the
class).  The socket field is the current connection with its readyState, or
none.  The event-handler table maps an event-type name to the ordered list of
registered callback identifiers. -/
structure EchoChamber where
  connectionState : ConnectionState := ConnectionState.connecting
  eventHandlers : List (String × List Nat) := []
  messageQueue : List MessageData := []
  pendingSubscriptions : List String := []
  reconnectAttempts : Nat := 0
  socket : Option ReadyState := none
  subscriptions : List String := []
  options : Options := {}
deriving DecidableEq, Repr

/-- Observable side effects of the operations: a frame transmitted on the
socket, a frame pushed onto the outbound queue, a callback invocation with the
event key and the data argument, and the arming of a reconnect timer. -/
inductive Effect
  | transmit (data : MessageData)
  | enqueue (data : MessageData)
  | invoke (eventType : String) (handler : Nat) (data : Option MessageData)
  | schedule (delay : Int)
deriving DecidableEq, Repr

/-- A runtime failure raised while routing a decoded frame: in the current
revision, `handlers.forEach` in _onMessage is evaluated without an optional
chain, so a missing handler list raises a TypeError. -/
inductive RouteError
  | typeError
deriving DecidableEq, Repr

/-- Set.prototype.add on an insertion-ordered duplicate-free list. -/
def setAdd (l : List String) (x : String) : List String :=
  if x ∈ l then l else l ++ [x]

/-- The frames handed to the send path, extracted from an effect trace
(whether transmitted immediately or queued). -/
def frames : List Effect → List MessageData
  | [] => []
  | Effect.transmit d :: es => d :: frames es
  | Effect.enqueue d :: es => d :: frames es
  | Effect.invoke _ _ _ :: es => frames es
  | Effect.schedule _ :: es => frames es

namespace EchoChamber

/-- send(data): transmit immediately when the socket is open, otherwise push
the serialized frame onto the message queue. -/
def send (s : EchoChamber) (data : MessageData) : EchoChamber × List Effect :=
  if s.socket = some ReadyState.OPEN then
    (s, [Effect.transmit data])
  else
    ({ s with messageQueue := s.messageQueue ++ [data] }, [Effect.enqueue data])

/-- _triggerEvent(eventType, data): invoke each handler registered under the
event type, in registration order; absent key means no invocation. -/
def _triggerEvent (s : EchoChamber) (eventType : String) (data : Option MessageData) :
    List Effect :=
  match s.eventHandlers.lookup eventType with
  | some hs => hs.map fun h => Effect.invoke eventType h data
  | none => []

/-- sub(room): when the room is in neither ledger set, add it to pending and
send a subscribe frame; otherwise only log. -/
def sub (s : EchoChamber) (room : String) : EchoChamber × List Effect :=
  if room ∉ s.subscriptions ∧ room ∉ s.pendingSubscriptions then
    send { s with pendingSubscriptions := setAdd s.pendingSubscriptions room }
      { action := "subscribe", room := some room }
  else
    (s, [])

/-- unsub(room): when the room is in either ledger set, delete it from both
and send an unsubscribe frame; otherwise only log. -/
def unsub (s : EchoChamber) (room : String) : EchoChamber × List Effect :=
  if room ∈ s.subscriptions ∨ room ∈ s.pendingSubscriptions then
    send { s with subscriptions := s.subscriptions.erase room,
                  pendingSubscriptions := s.pendingSubscriptions.erase room }
      { action := "unsubscribe", room := some room }
  else
    (s, [])

/-- pub(room, payload): always send a publish frame. -/
def pub (s : EchoChamber) (room : String) (payload : Option String) :
    EchoChamber × List Effect :=
  send s { action := "publish", room := some room, payload := payload }

/-- _subscribed(room): move the room from pending to confirmed, only when it
is currently pending. -/
def _subscribed (s : EchoChamber) (room : String) : EchoChamber :=
  if room ∈ s.pendingSubscriptions then
    { s with pendingSubscriptions := s.pendingSubscriptions.erase room,
             subscriptions := setAdd s.subscriptions room }
  else
    s

/-- _flushQueue(): attempt to transmit every queued entry through the current
socket when one exists, then clear the queue only when the socket readyState
is OPEN. -/
def _flushQueue (s : EchoChamber) : EchoChamber × List Effect :=
  let sent := if s.socket.isSome then s.messageQueue.map Effect.transmit else []
  if s.socket = some ReadyState.OPEN then
    ({ s with messageQueue := [] }, sent)
  else
    (s, sent)

/-- The forEach loop of _onOpen: call sub on each room of the snapshot list,
threading the state and concatenating the effects. -/
def subFold (s : EchoChamber) : List String → EchoChamber × List Effect
  | [] => (s, [])
  | room :: rest =>
    let p := sub s room
    let q := subFold p.1 rest
    (q.1, p.2 ++ q.2)

/-- _onOpen(): set the state to connected, reset the reconnect counter, flush
the queue, call sub on every room of the spread snapshot of the two ledger
sets, then fire the connect lifecycle event. -/
def _onOpen (s : EchoChamber) : EchoChamber × List Effect :=
  let s1 := { s with connectionState := ConnectionState.connected, reconnectAttempts := 0 }
  let p := _flushQueue s1
  let q := subFold p.1 (p.1.subscriptions ++ p.1.pendingSubscriptions)
  (q.1, p.2 ++ q.2 ++ _triggerEvent q.1 "connect" none)

/-- The reconnect delay formula of _onClose:
min(reconnectDelay * reconnectMultiplier ^ attempts, maxReconnectDelay). -/
def reconnectDelayFor (o : Options) (attempts : Nat) : Int :=
  min (o.reconnectDelay * o.reconnectMultiplier ^ attempts) o.maxReconnectDelay

/-- _onClose(): set the state to closed, fire the close lifecycle event, and
then, guarded by a comparison of the already-updated connection state against
connecting, arm the reconnect timer and increment the attempt counter.  The
guard reads the field after the update, exactly as the source does. -/
def _onClose (s : EchoChamber) : EchoChamber × List Effect :=
  let s1 := { s with connectionState := ConnectionState.closed }
  let closeEffs := _triggerEvent s1 "close" none
  if s1.connectionState ≠ ConnectionState.connecting then
    ({ s1 with reconnectAttempts := s1.reconnectAttempts + 1 },
      closeEffs ++ [Effect.schedule (reconnectDelayFor s1.options s1.reconnectAttempts)])
  else
    (s1, closeEffs)

/-- JavaScript truthiness of the optional room field: present and nonempty. -/
def roomTruthy : Option String → Bool
  | some r => r ≠ ""
  | none => false

/-- The routing of one successfully decoded frame in _onMessage: fire the
message lifecycle event, intercept subscribed-with-room and pong, otherwise
dispatch to the handlers registered under the action.  The handler list is
read without an optional chain in the current revision, so an absent list
raises a TypeError. -/
def _onMessage (s : EchoChamber) (data : MessageData) :
    Except RouteError (EchoChamber × List Effect) :=
  let msgEffs := _triggerEvent s "message" (some data)
  if data.action = "subscribed" ∧ roomTruthy data.room = true then
    Except.ok (_subscribed s (data.room.getD ""), msgEffs)
  else if data.action = "pong" then
    Except.ok (s, msgEffs)
  else
    match s.eventHandlers.lookup data.action with
    | some hs => Except.ok (s, msgEffs ++ hs.map fun h => Effect.invoke data.action h (some data))
    | none => Except.error RouteError.typeError

/-- The state after routing one decoded frame; when routing raises, no state
mutation has happened before the raise, so the state is unchanged. -/
def routeState (s : EchoChamber) (data : MessageData) : EchoChamber :=
  match _onMessage s data with
  | Except.ok (t, _) => t
  | Except.error _ => s

/-- _onError(event): set the state to error and fire the error event. -/
def _onError (s : EchoChamber) : EchoChamber × List Effect :=
  ({ s with connectionState := ConnectionState.error },
    _triggerEvent s "error" none)

/-- connect(): set the state to connecting, discard any previous socket and
open a fresh one (readyState CONNECTING); the keepalive timer is out of
scope here. -/
def connect (s : EchoChamber) : EchoChamber :=
  { s with connectionState := ConnectionState.connecting,
           socket := some ReadyState.CONNECTING }

/-- connected(): the socket exists and its readyState is OPEN. -/
def connected (s : EchoChamber) : Bool :=
  decide (s.socket = some ReadyState.OPEN)

/-- disconnect(): close an open or opening socket, force the state to closed,
fire the close event, and clear the queue and both ledger sets. -/
def disconnect (s : EchoChamber) : EchoChamber × List Effect :=
  let s1 :=
    if s.socket = some ReadyState.OPEN ∨ s.socket = some ReadyState.CONNECTING then
      { s with socket := none }
    else
      s
  let s2 := { s1 with connectionState := ConnectionState.closed }
  ({ s2 with messageQueue := [], subscriptions := [], pendingSubscriptions := [] },
    _triggerEvent s2 "close" none)

/-- on(eventType, handler): append the handler to the list registered under
the event type, creating the list when absent. -/
def addHandler : List (String × List Nat) → String → Nat → List (String × List Nat)
  | [], eventType, h => [(eventType, [h])]
  | (k, hs) :: rest, eventType, h =>
    if k = eventType then (k, hs ++ [h]) :: rest
    else (k, hs) :: addHandler rest eventType h

/-- on(eventType, handler); named onEvent because on is reserved in Lean. -/
def onEvent (s : EchoChamber) (eventType : String) (h : Nat) : EchoChamber :=
  { s with eventHandlers := addHandler s.eventHandlers eventType h }

/-- cleanup(): clear pending subscriptions, drop the socket, clear the queue
and the confirmed set, reset the reconnect counter, force the state closed. -/
def cleanup (s : EchoChamber) : EchoChamber :=
  { s with pendingSubscriptions := [], socket := none, messageQueue := [],
           subscriptions := [], reconnectAttempts := 0,
           connectionState := ConnectionState.closed }

/-- Construction: fields initialized to their declared defaults, then connect
when the autoconnect option is set. -/
def init (o : Options) (autoconnect : Bool) : EchoChamber :=
  let base : EchoChamber := { options := o }
  if autoconnect then connect base else base

/-- n successive sub calls on the same room, threading the state. -/
def subTimes (s : EchoChamber) (room : String) : Nat → EchoChamber × List Effect
  | 0 => (s, [])
  | Nat.succ n =>
    let p := sub s room
    let q := subTimes p.1 room n
    (q.1, p.2 ++ q.2)

/-- The option set used by the backoff test of the repository:
base delay 10, multiplier 2, ceiling 50. -/
def demoOptions : Options :=
  { reconnectDelay := 10, reconnectMultiplier := 2, maxReconnectDelay := 50,
    reconnect := true }

/-- A freshly opened session with no subscriptions. -/
def freshSession : EchoChamber :=
  { connectionState := ConnectionState.connected, socket := some ReadyState.OPEN,
    options := demoOptions }

/-- A session holding one confirmed room X, as left by a completed subscribe
handshake, observing a transport open event after a reconnect. -/
def confirmedX : EchoChamber :=
  { connectionState := ConnectionState.connected, subscriptions := ["X"],
    pendingSubscriptions := [], socket := some ReadyState.OPEN,
    options := demoOptions }

/-- A session holding one pending room Y, observing a transport open event. -/
def pendingY : EchoChamber :=
  { connectionState := ConnectionState.connected, subscriptions := [],
    pendingSubscriptions := ["Y"], socket := some ReadyState.OPEN,
    options := demoOptions }

/-- A session whose connection attempt is still in flight. -/
def connectingState : EchoChamber :=
  { connectionState := ConnectionState.connecting,
    socket := some ReadyState.CONNECTING, options := demoOptions }

/-- A connected session with one handler registered under an unrelated
action. -/
def chatSession : EchoChamber :=
  { connectionState := ConnectionState.connected, socket := some ReadyState.OPEN,
    eventHandlers := [("other", [0])], options := demoOptions }

/-- A connected session with one confirmed and one pending room. -/
def subscribedLobby : EchoChamber :=
  { connectionState := ConnectionState.connected, socket := some ReadyState.OPEN,
    subscriptions := ["lobby"], pendingSubscriptions := ["side"],
    options := demoOptions }

/-- A session with one queued outbound frame and an open socket. -/
def queuedSession : EchoChamber :=
  { socket := some ReadyState.OPEN,
    messageQueue := [{ action := "publish", room := some "lobby", payload := some "hi" }],
    options := demoOptions }

/-- A session observing a transport close after three earlier close events. -/
def closingSession : EchoChamber :=
  { connectionState := ConnectionState.connected, socket := some ReadyState.CLOSED,
    reconnectAttempts := 3, options := demoOptions }

/-- One step of the session: a public API call, a transport lifecycle event
delivered to its handler, or a readyState change of the transport object
itself (an environment action). -/
inductive Step : EchoChamber → EchoChamber → Prop
  | send (s : EchoChamber) (d : MessageData) : Step s (send s d).1
  | sub (s : EchoChamber) (r : String) : Step s (sub s r).1
  | unsub (s : EchoChamber) (r : String) : Step s (unsub s r).1
  | pub (s : EchoChamber) (r : String) (p : Option String) : Step s (pub s r p).1
  | onOpen (s : EchoChamber) : Step s (_onOpen s).1
  | onClose (s : EchoChamber) : Step s (_onClose s).1
  | onMessage (s : EchoChamber) (d : MessageData) : Step s (routeState s d)
  | onError (s : EchoChamber) : Step s (_onError s).1
  | disconnect (s : EchoChamber) : Step s (disconnect s).1
  | cleanup (s : EchoChamber) : Step s (cleanup s)
  | connect (s : EchoChamber) : Step s (connect s)
  | onEvent (s : EchoChamber) (e : String) (h : Nat) : Step s (onEvent s e h)
  | transport (s : EchoChamber) (rs : Option ReadyState) : Step s { s with socket := rs }

/-- The states reachable from construction by any sequence of operations. -/
inductive Reachable : EchoChamber → Prop
  | init (o : Options) (auto : Bool) : Reachable (EchoChamber.init o auto)
  | step {s t : EchoChamber} : Reachable s → Step s t → Reachable t

/-- The ledger invariant: each set is duplicate-free and the two sets are
disjoint. -/
def Inv (s : EchoChamber) : Prop :=
  s.pendingSubscriptions.Nodup ∧ s.subscriptions.Nodup ∧
    s.pendingSubscriptions.Disjoint s.subscriptions

theorem send_fst (s : EchoChamber) (d : MessageData) :
    (send s d).1 = if s.socket = some ReadyState.OPEN then s
                   else { s with messageQueue := s.messageQueue ++ [d] } := by
  unfold send; split <;> rfl

theorem send_pending (s : EchoChamber) (d : MessageData) :
    (send s d).1.pendingSubscriptions = s.pendingSubscriptions := by
  rw [send_fst]; split <;> rfl

theorem send_subs (s : EchoChamber) (d : MessageData) :
    (send s d).1.subscriptions = s.subscriptions := by
  rw [send_fst]; split <;> rfl

theorem send_socket (s : EchoChamber) (d : MessageData) :
    (send s d).1.socket = s.socket := by
  rw [send_fst]; split <;> rfl

theorem frames_send (s : EchoChamber) (d : MessageData) :
    frames (send s d).2 = [d] := by
  unfold send; split <;> rfl

theorem sub_of_fresh {s : EchoChamber} {room : String}
    (h1 : room ∉ s.subscriptions) (h2 : room ∉ s.pendingSubscriptions) :
    sub s room =
      send { s with pendingSubscriptions := s.pendingSubscriptions ++ [room] }
        { action := "subscribe", room := some room } := by
  unfold sub
  rw [if_pos ⟨h1, h2⟩]
  unfold setAdd
  rw [if_neg h2]

theorem sub_noop {s : EchoChamber} {room : String}
    (h : room ∈ s.subscriptions ∨ room ∈ s.pendingSubscriptions) :
    sub s room = (s, []) := by
  unfold sub
  rw [if_neg]
  intro hc
  exact h.elim hc.1 hc.2

theorem sub_pending_of_fresh {s : EchoChamber} {room : String}
    (h1 : room ∉ s.subscriptions) (h2 : room ∉ s.pendingSubscriptions) :
    (sub s room).1.pendingSubscriptions = s.pendingSubscriptions ++ [room] := by
  rw [sub_of_fresh h1 h2, send_pending]

theorem sub_subs_of_fresh {s : EchoChamber} {room : String}
    (h1 : room ∉ s.subscriptions) (h2 : room ∉ s.pendingSubscriptions) :
    (sub s room).1.subscriptions = s.subscriptions := by
  rw [sub_of_fresh h1 h2, send_subs]

theorem inv_sub {s : EchoChamber} (room : String) (h : Inv s) : Inv (sub s room).1 := by
  obtain ⟨hp, hs, hd⟩ := h
  by_cases hc : room ∉ s.subscriptions ∧ room ∉ s.pendingSubscriptions
  · rw [sub_of_fresh hc.1 hc.2]
    refine ⟨?_, ?_, ?_⟩
    · rw [send_pending]
      exact List.nodup_append.mpr ⟨hp, List.nodup_singleton room,
        fun a ha hb => by
          rw [List.mem_singleton] at hb
          exact hc.2 (hb ▸ ha)⟩
    · rw [send_subs]; exact hs
    · rw [send_pending, send_subs]
      intro a ha hb
      rcases List.mem_append.mp ha with ha | ha
      · exact hd ha hb
      · rw [List.mem_singleton] at ha
        exact hc.1 (ha ▸ hb)
  · rw [sub_noop (by tauto)]
    exact ⟨hp, hs, hd⟩

theorem unsub_of_present {s : EchoChamber} {room : String}
    (h : room ∈ s.subscriptions ∨ room ∈ s.pendingSubscriptions) :
    unsub s room =
      send { s with subscriptions := s.subscriptions.erase room,
                    pendingSubscriptions := s.pendingSubscriptions.erase room }
        { action := "unsubscribe", room := some room } := by
  unfold unsub
  rw [if_pos h]

theorem unsub_noop {s : EchoChamber} {room : String}
    (h1 : room ∉ s.subscriptions) (h2 : room ∉ s.pendingSubscriptions) :
    unsub s room = (s, []) := by
  unfold unsub
  rw [if_neg]
  intro hc
  exact hc.elim h1 h2

theorem inv_unsub {s : EchoChamber} (room : String) (h : Inv s) : Inv (unsub s room).1 := by
  obtain ⟨hp, hs, hd⟩ := h
  by_cases hc : room ∈ s.subscriptions ∨ room ∈ s.pendingSubscriptions
  · rw [unsub_of_present hc]
    refine ⟨?_, ?_, ?_⟩
    · rw [send_pending]; exact hp.erase room
    · rw [send_subs]; exact hs.erase room
    · rw [send_pending, send_subs]
      intro a ha hb
      exact hd (List.mem_of_mem_erase ha) (List.mem_of_mem_erase hb)
  · push_neg at hc
    rw [unsub_noop hc.1 hc.2]
    exact ⟨hp, hs, hd⟩

theorem subscribed_of_pending {s : EchoChamber} {room : String}
    (h : room ∈ s.pendingSubscriptions) (hns : room ∉ s.subscriptions) :
    _subscribed s room =
      { s with pendingSubscriptions := s.pendingSubscriptions.erase room,
               subscriptions := s.subscriptions ++ [room] } := by
  unfold _subscribed
  rw [if_pos h]
  unfold setAdd
  rw [if_neg hns]

theorem subscribed_noop {s : EchoChamber} {room : String}
    (h : room ∉ s.pendingSubscriptions) : _subscribed s room = s := by
  unfold _subscribed
  rw [if_neg h]

theorem inv_subscribed {s : EchoChamber} (room : String) (h : Inv s) :
    Inv (_subscribed s room) := by
  obtain ⟨hp, hs, hd⟩ := h
  by_cases hc : room ∈ s.pendingSubscriptions
  · have hns : room ∉ s.subscriptions := fun hb => hd hc hb
    rw [subscribed_of_pending hc hns]
    refine ⟨hp.erase room, ?_, ?_⟩
    · exact List.nodup_append.mpr ⟨hs, List.nodup_singleton room,
        fun a ha hb => by
          rw [List.mem_singleton] at hb
          exact hns (hb ▸ ha)⟩
    · intro a ha hb
      have ha' := (List.Nodup.mem_erase_iff hp).mp ha
      rcases List.mem_append.mp hb with hb | hb
      · exact hd ha'.2 hb
      · rw [List.mem_singleton] at hb
        exact ha'.1 hb
  · rw [subscribed_noop hc]
    exact ⟨hp, hs, hd⟩

theorem flush_fst (s : EchoChamber) :
    (_flushQueue s).1 = if s.socket = some ReadyState.OPEN then { s with messageQueue := [] }
                        else s := by
  by_cases h : s.socket = some ReadyState.OPEN <;> simp [_flushQueue, h]

theorem inv_flush {s : EchoChamber} (h : Inv s) : Inv (_flushQueue s).1 := by
  rw [flush_fst]
  split <;> exact h

theorem inv_send {s : EchoChamber} (d : MessageData) (h : Inv s) : Inv (send s d).1 := by
  obtain ⟨hp, hsu, hd⟩ := h
  exact ⟨by rw [send_pending]; exact hp, by rw [send_subs]; exact hsu,
         by rw [send_pending, send_subs]; exact hd⟩

theorem inv_pub {s : EchoChamber} (r : String) (p : Option String) (h : Inv s) :
    Inv (pub s r p).1 := by
  unfold pub
  exact inv_send _ h

theorem inv_subFold {s : EchoChamber} (rooms : List String) (h : Inv s) :
    Inv (subFold s rooms).1 := by
  induction rooms generalizing s with
  | nil => exact h
  | cons room rest ih => exact ih (inv_sub room h)

theorem inv_onOpen {s : EchoChamber} (h : Inv s) : Inv (_onOpen s).1 := by
  unfold _onOpen
  exact inv_subFold _ (inv_flush h)

theorem onClose_fst (s : EchoChamber) :
    (_onClose s).1 = { s with connectionState := ConnectionState.closed,
                              reconnectAttempts := s.reconnectAttempts + 1 } := by
  rfl

theorem inv_onClose {s : EchoChamber} (h : Inv s) : Inv (_onClose s).1 := by
  rw [onClose_fst]
  exact h

theorem routeState_cases (s : EchoChamber) (d : MessageData) :
    routeState s d = _subscribed s (d.room.getD "") ∨ routeState s d = s := by
  unfold routeState _onMessage
  by_cases h1 : d.action = "subscribed" ∧ roomTruthy d.room = true
  · rw [if_pos h1]; left; rfl
  · rw [if_neg h1]
    by_cases h2 : d.action = "pong"
    · rw [if_pos h2]; right; rfl
    · rw [if_neg h2]
      rcases hl : s.eventHandlers.lookup d.action with _ | hs
      · right
        simp only [hl]
      · right
        simp only [hl]

theorem inv_routeState {s : EchoChamber} (d : MessageData) (h : Inv s) :
    Inv (routeState s d) := by
  rcases routeState_cases s d with hc | hc <;> rw [hc]
  · exact inv_subscribed _ h
  · exact h

theorem inv_init (o : Options) (auto : Bool) : Inv (init o auto) := by
  unfold init
  split <;> exact ⟨List.nodup_nil, List.nodup_nil, fun a ha _ => List.not_mem_nil a ha⟩

/-- Every reachable state satisfies the ledger invariant. -/
theorem reachable_inv {s : EchoChamber} (h : Reachable s) : Inv s := by
  induction h with
  | init o auto => exact inv_init o auto
  | step _ hs ih =>
    cases hs with
    | send d => exact inv_send d ih
    | sub r => exact inv_sub r ih
    | unsub r => exact inv_unsub r ih
    | pub r p => exact inv_pub r p ih
    | onOpen => exact inv_onOpen ih
    | onClose => exact inv_onClose ih
    | onMessage d => exact inv_routeState d ih
    | onError => exact ih
    | disconnect =>
      exact ⟨List.nodup_nil, List.nodup_nil, fun a ha _ => List.not_mem_nil a ha⟩
    | cleanup =>
      exact ⟨List.nodup_nil, List.nodup_nil, fun a ha _ => List.not_mem_nil a ha⟩
    | connect => exact ih
    | onEvent e hh => exact ih
    | transport rs => exact ih

/-- Claim C3: in every state reachable by any sequence of operations
(subscribe, unsubscribe, subscribed-acknowledgment handling, open and close
events, disconnect, cleanup, and the rest of the API), the pending and
confirmed ledger sets are disjoint: a room in the pending set is never also
in the confirmed set. -/
theorem ledger_sets_disjoint (s : EchoChamber) (h : Reachable s) (r : String)
    (hp : r ∈ s.pendingSubscriptions) : r ∉ s.subscriptions :=
  fun hc => (reachable_inv h).2.2 hp hc

theorem ledger_sets_disjoint_witness :
    "X" ∈ (sub (init demoOptions true) "X").1.pendingSubscriptions ∧
    "X" ∉ (sub (init demoOptions true) "X").1.subscriptions :=
  ⟨by decide,
    ledger_sets_disjoint _
      (Reachable.step (Reachable.init demoOptions true)
        (Step.sub (init demoOptions true) "X")) "X" (by decide)⟩

/-- Claim C10: processing a subscribed acknowledgment for a room that is not
in the pending set (never requested, or already confirmed) leaves the state,
in particular both ledger sets, unchanged: the confirmation handler is a
no-op unless the room is currently pending. -/
theorem confirm_unknown_room_noop (s : EchoChamber) (r : String)
    (h : r ∉ s.pendingSubscriptions) :
    _subscribed s r = s ∧
    routeState s { action := "subscribed", room := some r } = s := by
  refine ⟨subscribed_noop h, ?_⟩
  rcases routeState_cases s { action := "subscribed", room := some r } with hc | hc
  · rw [hc]
    exact subscribed_noop h
  · exact hc

theorem confirm_unknown_room_noop_witness :
    _subscribed subscribedLobby "lobby" = subscribedLobby ∧
    routeState subscribedLobby { action := "subscribed", room := some "lobby" } =
      subscribedLobby :=
  confirm_unknown_room_noop subscribedLobby "lobby" (by decide)

/-- Claim C9: unsubscribe issues no outbound frame when the room is in
neither ledger set; when the room is in either set, including a room that is
only pending, it is deleted from both sets and exactly one unsubscribe frame
is issued through the send path. -/
theorem unsubscribe_spec (s : EchoChamber) (r : String) :
    ((r ∉ s.subscriptions ∧ r ∉ s.pendingSubscriptions) → unsub s r = (s, [])) ∧
    ((r ∈ s.subscriptions ∨ r ∈ s.pendingSubscriptions) →
      ((unsub s r).1.subscriptions = s.subscriptions.erase r ∧
       (unsub s r).1.pendingSubscriptions = s.pendingSubscriptions.erase r ∧
       (s.subscriptions.Nodup → r ∉ (unsub s r).1.subscriptions) ∧
       (s.pendingSubscriptions.Nodup → r ∉ (unsub s r).1.pendingSubscriptions) ∧
       frames (unsub s r).2 = [{ action := "unsubscribe", room := some r }])) := by
  constructor
  · intro hc
    exact unsub_noop hc.1 hc.2
  · intro h
    rw [unsub_of_present h]
    refine ⟨by rw [send_subs], by rw [send_pending], ?_, ?_, frames_send _ _⟩
    · intro hnd hcon
      rw [send_subs] at hcon
      exact ((List.Nodup.mem_erase_iff hnd).mp hcon).1 rfl
    · intro hnd hcon
      rw [send_pending] at hcon
      exact ((List.Nodup.mem_erase_iff hnd).mp hcon).1 rfl

theorem unsubscribe_spec_witness :
    unsub freshSession "nowhere" = (freshSession, []) ∧
    frames (unsub subscribedLobby "side").2 =
      [{ action := "unsubscribe", room := some "side" }] :=
  ⟨(unsubscribe_spec freshSession "nowhere").1 (by decide),
   ((unsubscribe_spec subscribedLobby "side").2 (by decide)).2.2.2.2⟩

/-- Claim C4: flush attempts transmission of the queued entries in order
through the current connection when one exists, the queue is cleared exactly
when the socket is confirmed open at the end of the attempt, and a flush
against a connection that is not open leaves the queue contents intact. -/
theorem flush_queue_spec (s : EchoChamber) :
    (_flushQueue s).2 =
      (if s.socket.isSome then s.messageQueue.map Effect.transmit else []) ∧
    (_flushQueue s).1.messageQueue =
      (if s.socket = some ReadyState.OPEN then [] else s.messageQueue) ∧
    (s.messageQueue ≠ [] →
      ((_flushQueue s).1.messageQueue = [] ↔ s.socket = some ReadyState.OPEN)) := by
  refine ⟨?_, ?_, ?_⟩
  · by_cases h : s.socket = some ReadyState.OPEN <;> simp [_flushQueue, h]
  · rw [flush_fst]
    by_cases h : s.socket = some ReadyState.OPEN <;> simp [h]
  · intro hq
    constructor
    · intro he
      by_cases h : s.socket = some ReadyState.OPEN
      · exact h
      · rw [flush_fst, if_neg h] at he
        exact absurd he hq
    · intro h
      rw [flush_fst, if_pos h]

theorem flush_queue_spec_witness :
    queuedSession.messageQueue ≠ [] ∧
    ((_flushQueue queuedSession).1.messageQueue = [] ↔
      queuedSession.socket = some ReadyState.OPEN) :=
  ⟨by decide, (flush_queue_spec queuedSession).2.2 (by decide)⟩

theorem subTimes_noop {s : EchoChamber} {r : String}
    (h : r ∈ s.subscriptions ∨ r ∈ s.pendingSubscriptions) (n : Nat) :
    subTimes s r n = (s, []) := by
  induction n with
  | zero => rfl
  | succ n ih =>
    show (let p := sub s r; let q := subTimes p.1 r n; (q.1, p.2 ++ q.2)) = (s, [])
    rw [sub_noop h]
    dsimp only
    rw [ih]
    rfl

/-- Claim C8: subscribe is idempotent: over any number n of successive
subscribe calls on a fresh room (n at least one, all before any
acknowledgment), the room is appended to the pending set exactly once, the
confirmed set is untouched, exactly one subscribe frame is issued (by the
first call), and a subscribe on a room already pending or confirmed is a
no-op apart from logging. -/
theorem subscribe_idempotent (s : EchoChamber) (r : String) (n : Nat)
    (h1 : r ∉ s.subscriptions) (h2 : r ∉ s.pendingSubscriptions) (hn : 1 ≤ n) :
    (subTimes s r n).1.pendingSubscriptions = s.pendingSubscriptions ++ [r] ∧
    (subTimes s r n).1.subscriptions = s.subscriptions ∧
    (subTimes s r n).1.pendingSubscriptions.count r = 1 ∧
    frames (subTimes s r n).2 = [{ action := "subscribe", room := some r }] ∧
    ∀ t : EchoChamber, (r ∈ t.subscriptions ∨ r ∈ t.pendingSubscriptions) →
      sub t r = (t, []) := by
  obtain ⟨k, rfl⟩ : ∃ k, n = k + 1 := ⟨n - 1, (Nat.succ_pred_eq_of_pos hn).symm⟩
  have hp1 : (sub s r).1.pendingSubscriptions = s.pendingSubscriptions ++ [r] :=
    sub_pending_of_fresh h1 h2
  have hs1 : (sub s r).1.subscriptions = s.subscriptions :=
    sub_subs_of_fresh h1 h2
  have hmem : r ∈ (sub s r).1.pendingSubscriptions := by
    rw [hp1]
    exact List.mem_append_right _ (List.mem_singleton_self r)
  have hrest : subTimes (sub s r).1 r k = ((sub s r).1, []) :=
    subTimes_noop (Or.inr hmem) k
  have heq : subTimes s r (k + 1) =
      ((subTimes (sub s r).1 r k).1, (sub s r).2 ++ (subTimes (sub s r).1 r k).2) := rfl
  rw [heq, hrest]
  dsimp only
  refine ⟨hp1, hs1, ?_, ?_, fun t ht => sub_noop ht⟩
  · rw [hp1, List.count_append, List.count_eq_zero_of_not_mem h2]
    simp
  · rw [List.append_nil, sub_of_fresh h1 h2, frames_send]

theorem subscribe_idempotent_witness :
    1 ≤ 3 ∧
    (subTimes freshSession "X" 3).1.pendingSubscriptions.count "X" = 1 ∧
    frames (subTimes freshSession "X" 3).2 =
      [{ action := "subscribe", room := some "X" }] :=
  ⟨by decide,
   (subscribe_idempotent freshSession "X" 3 (by decide) (by decide) (by decide)).2.2.1,
   (subscribe_idempotent freshSession "X" 3 (by decide) (by decide) (by decide)).2.2.2.1⟩

/-- Claim C7: every close-triggered schedule arms the reconnect timer with
delay min(baseDelay * multiplier ^ attemptCount, maxDelay) computed from the
integer attempt count (starting at 0), the attempt counter increments once
per close-triggered schedule regardless of the reconnect-enabled flag, the
delay never exceeds the maximum and is never negative for nonnegative
option values, and with base 10, multiplier 2, maximum 50 the successive
delays are exactly 10, 20, 40, 50, 50, 50 and stay 50 from the fourth close
on. -/
theorem reconnect_backoff (s : EchoChamber) (n : Nat)
    (hb : 0 ≤ s.options.reconnectDelay) (hm : 0 ≤ s.options.reconnectMultiplier)
    (hx : 0 ≤ s.options.maxReconnectDelay) :
    (_onClose s).2 = _triggerEvent s "close" none ++
      [Effect.schedule (reconnectDelayFor s.options s.reconnectAttempts)] ∧
    (_onClose s).1.reconnectAttempts = s.reconnectAttempts + 1 ∧
    reconnectDelayFor s.options n ≤ s.options.maxReconnectDelay ∧
    0 ≤ reconnectDelayFor s.options n ∧
    ([0, 1, 2, 3, 4, 5].map (reconnectDelayFor demoOptions) =
        [10, 20, 40, 50, 50, 50] ∧
      ∀ m : Nat, 3 ≤ m → reconnectDelayFor demoOptions m = 50) := by
  refine ⟨rfl, rfl, min_le_right _ _,
    le_min (mul_nonneg hb (pow_nonneg hm n)) hx, by decide, ?_⟩
  intro m hm3
  unfold reconnectDelayFor demoOptions
  rw [min_eq_right]
  dsimp only
  calc (50:Int) ≤ 10 * 2 ^ 3 := by norm_num
    _ ≤ 10 * 2 ^ m := by
        have h2m : (2:Int) ^ 3 ≤ 2 ^ m := pow_le_pow_right₀ (by norm_num) hm3
        linarith

theorem erase_append_singleton {l : List String} {r : String} (h : r ∉ l) :
    (l ++ [r]).erase r = l := by
  rw [List.erase_append_right _ h, List.erase_cons_head, List.append_nil]

/-- Claim C6 counterexample: for the empty room name, subscribe adds the room
to pending, but the subscribed acknowledgment frame carrying that room is not
intercepted (the room field is falsy in the router), so the room is never
moved to confirmed and routing does not stop at the ledger update. -/
theorem subscribe_confirm_empty_room_fails :
    (sub freshSession "").1.pendingSubscriptions = [""] ∧
    routeState (sub freshSession "").1 { action := "subscribed", room := some "" } =
      (sub freshSession "").1 ∧
    "" ∉ (routeState (sub freshSession "").1
        { action := "subscribed", room := some "" }).subscriptions := by
  decide

/-- Claim C6, amended to nonempty room names: subscribing a fresh nonempty
room and then processing the subscribed acknowledgment for it moves the room
from pending to confirmed, and routing of that frame stops after the ledger
update: its only dispatch is the message lifecycle event, no business-event
handler dispatch occurs. -/
theorem subscribe_confirm_roundtrip (s : EchoChamber) (r : String) (hr : r ≠ "")
    (h1 : r ∉ s.subscriptions) (h2 : r ∉ s.pendingSubscriptions) :
    _onMessage (sub s r).1 { action := "subscribed", room := some r } =
      Except.ok (_subscribed (sub s r).1 r,
        _triggerEvent (sub s r).1 "message"
          (some { action := "subscribed", room := some r })) ∧
    r ∈ (_subscribed (sub s r).1 r).subscriptions ∧
    r ∉ (_subscribed (sub s r).1 r).pendingSubscriptions ∧
    ∀ e ∈ _triggerEvent (sub s r).1 "message"
        (some { action := "subscribed", room := some r }),
      ∃ h : Nat, e = Effect.invoke "message" h
        (some { action := "subscribed", room := some r }) := by
  have hp1 : (sub s r).1.pendingSubscriptions = s.pendingSubscriptions ++ [r] :=
    sub_pending_of_fresh h1 h2
  have hs1 : (sub s r).1.subscriptions = s.subscriptions :=
    sub_subs_of_fresh h1 h2
  have hmem : r ∈ (sub s r).1.pendingSubscriptions := by
    rw [hp1]
    exact List.mem_append_right _ (List.mem_singleton_self r)
  have hnsub : r ∉ (sub s r).1.subscriptions := by
    rw [hs1]
    exact h1
  refine ⟨?_, ?_, ?_, ?_⟩
  · unfold _onMessage
    rw [if_pos ⟨rfl, by simp [roomTruthy, hr]⟩]
    rfl
  · rw [subscribed_of_pending hmem hnsub]
    show r ∈ (sub s r).1.subscriptions ++ [r]
    exact List.mem_append_right _ (List.mem_singleton_self r)
  · rw [subscribed_of_pending hmem hnsub]
    show r ∉ ((sub s r).1.pendingSubscriptions).erase r
    rw [hp1, erase_append_singleton h2]
    exact h2
  · intro e he
    unfold _triggerEvent at he
    rcases hl : List.lookup "message" (sub s r).1.eventHandlers with _ | hs
    · rw [hl] at he
      exact absurd he (List.not_mem_nil e)
    · rw [hl] at he
      obtain ⟨h, _, rfl⟩ := List.mem_map.mp he
      exact ⟨h, rfl⟩

theorem subscribe_confirm_roundtrip_witness :
    ("X" : String) ≠ "" ∧
    "X" ∈ (_subscribed (sub freshSession "X").1 "X").subscriptions ∧
    "X" ∉ (_subscribed (sub freshSession "X").1 "X").pendingSubscriptions :=
  ⟨by decide,
   (subscribe_confirm_roundtrip freshSession "X" (by decide) (by decide) (by decide)).2.1,
   (subscribe_confirm_roundtrip freshSession "X" (by decide) (by decide) (by decide)).2.2.1⟩

/-- Claim C1: on a transport open event the code calls sub on every room of
the two ledger sets, but the idempotence guard of sub sees each such room as
already present and returns without sending: for a session holding confirmed
room X (or pending room Y), no subscribe frame is issued, no room is added
to the pending set, and the ledger sets are left exactly as they were, so
no fresh acknowledgment is ever requested. -/
theorem open_event_does_not_resubscribe :
    ((_onOpen confirmedX).1.pendingSubscriptions = [] ∧
     (_onOpen confirmedX).1.subscriptions = ["X"] ∧
     (_onOpen confirmedX).2 = []) ∧
    ((_onOpen pendingY).1.pendingSubscriptions = ["Y"] ∧
     (_onOpen pendingY).2 = []) := by
  decide

/-- Claim C2: a transport close that arrives while the state is connecting
still schedules a reconnect and increments the attempt counter: the guard in
the close handler compares the connection state after it has already been
set to closed, so it never sees the prior connecting state. -/
theorem close_during_connecting_still_schedules :
    connectingState.connectionState = ConnectionState.connecting ∧
    (_onClose connectingState).2 = [Effect.schedule 10] ∧
    (_onClose connectingState).1.reconnectAttempts =
      connectingState.reconnectAttempts + 1 := by
  decide

/-- Claim C5: routing a successfully decoded frame whose action is neither
subscribed-with-room nor pong, with no handler registered under that action,
raises a TypeError instead of completing as a no-op: the handler list is
read without an optional chain in this revision. -/
theorem route_without_handlers_raises :
    _onMessage chatSession { action := "chat" } =
      Except.error RouteError.typeError := by
  rfl

theorem reconnect_backoff_witness :
    (0:Int) ≤ closingSession.options.reconnectDelay ∧
    (_onClose closingSession).1.reconnectAttempts =
      closingSession.reconnectAttempts + 1 ∧
    reconnectDelayFor closingSession.options 7 ≤
      closingSession.options.maxReconnectDelay :=
  ⟨by decide,
   (reconnect_backoff closingSession 7 (by decide) (by decide) (by decide)).2.1,
   (reconnect_backoff closingSession 7 (by decide) (by decide) (by decide)).2.2.1⟩

end EchoChamber
